import Mathlib

/-!
# Verification of the cex-as-promised CEX.io client core

Shallow embedding of `src/index.js` (the retry-enabled implementation,
lines 159-421 of the concatenated source): the response normalizer
(`parseObjectStrings` / `transformString`), the decimal-string formatter
(`maxDpStr`), the request signer (`_postAuth`), the retrying transport
wrapper (the constructor's `p-retry` default transport), and the endpoint
response handlers.

JavaScript modelling conventions used throughout:
* JS numbers are modelled as exact rationals (`ℚ`); `NaN` is represented
  by `Option ℚ = none` where a parse can fail.  Float rounding and the
  `Infinity` values produced by `parseFloat` on overflow are outside the
  modelled fragment; no theorem below depends on them.
* JS objects are insertion-ordered association lists; `Object.assign`
  updates an existing key in place, otherwise appends.
* Strings are Lean `String`s (the byte level is reached through an
  explicit UTF-8 encoder where the HMAC needs it).
-/

set_option maxRecDepth 16384

/-- A decoded JavaScript value: the payload shape the normalizer walks.
`undefined` is JavaScript `undefined` (an absent response / absent field). -/
inductive JValue where
  | str : String → JValue
  | num : ℚ → JValue
  | bool : Bool → JValue
  | null : JValue
  | undefined : JValue
  | arr : List JValue → JValue
  | obj : List (String × JValue) → JValue

/-- JavaScript truthiness (`!v` in the source is `!(jsTruthy v)`).
`NaN` is falsy in JS; it does not occur as a stored leaf in this model. -/
def jsTruthy : JValue → Bool
  | .undefined => false
  | .null => false
  | .bool b => b
  | .num q => !(q = 0)
  | .str s => !(s = "")
  | .arr _ => true
  | .obj _ => true

/-- First-match lookup in an object's key/value list. -/
def jsGetKVs : List (String × JValue) → String → JValue
  | [], _ => .undefined
  | (k, v) :: rest, key => if k = key then v else jsGetKVs rest key

/-- JS property access `v.key`: `undefined` on non-objects or missing keys. -/
def jsGet (v : JValue) (key : String) : JValue :=
  match v with
  | .obj kvs => jsGetKVs kvs key
  | _ => .undefined

/-- JS strict equality `v === 'lit'` against a string literal. -/
def jsStrictEqStr (v : JValue) (lit : String) : Bool :=
  match v with
  | .str s => s = lit
  | _ => false

/-! ## The `parseFloat` fragment

`transformString` and `maxDpStr` both rely on JavaScript's `parseFloat`,
which skips leading whitespace and then reads the **longest prefix** that
matches the decimal-literal grammar (optional sign, digits with optional
fraction, optional exponent), returning `NaN` only when no digits are
consumed.  `parseFloatAux` returns the parsed value together with the
unconsumed remainder so that full-string syntactic validity (the spec's
wording) can be stated against the same grammar. -/

def isSpaceChar (c : Char) : Bool :=
  c = ' ' || c = '\t' || c = '\n' || c = '\r'

def isDigitChar (c : Char) : Bool :=
  '0' ≤ c && c ≤ '9'

def digitVal (c : Char) : Nat := c.toNat - 48

/-- Decimal value of a digit string (most significant first). -/
def digitsVal (l : List Char) : Nat :=
  l.foldl (fun a c => 10 * a + digitVal c) 0

def spanDigits (l : List Char) : List Char × List Char :=
  (l.takeWhile isDigitChar, l.dropWhile isDigitChar)

/-- Parse an optional exponent part (`e`/`E`, optional sign, digits).
If the characters do not form a complete exponent they are left
unconsumed, exactly as `parseFloat`'s longest-valid-prefix rule demands. -/
def parseExp (l : List Char) : Int × List Char :=
  match l with
  | c :: rest =>
    if c = 'e' || c = 'E' then
      match rest with
      | s :: rest2 =>
        if s = '+' then
          match spanDigits rest2 with
          | ([], _) => (0, l)
          | (ds, r) => ((digitsVal ds : Int), r)
        else if s = '-' then
          match spanDigits rest2 with
          | ([], _) => (0, l)
          | (ds, r) => (-(digitsVal ds : Int), r)
        else
          match spanDigits rest with
          | ([], _) => (0, l)
          | (ds, r) => ((digitsVal ds : Int), r)
      | [] => (0, l)
    else (0, l)
  | [] => (0, l)

/-- `ratOfParts neg m p` is `±(m · 10^p)` as a rational, built with
integer arithmetic and `mkRat` only (the `Rat` field operations are
irreducible and would block evaluation by `decide`/`rfl`). -/
def ratOfParts (neg : Bool) (m : Nat) (pow10 : Int) : ℚ :=
  let sgn : Int := if neg then -1 else 1
  if 0 ≤ pow10 then mkRat (sgn * (m * 10 ^ pow10.toNat : Nat)) 1
  else mkRat (sgn * m) (10 ^ (-pow10).toNat)

/-- Longest-prefix decimal-literal parse (the body of `parseFloat` after
whitespace skipping).  Returns the value and the unconsumed remainder,
or `none` when no mantissa digits are consumed (JS `NaN`). -/
def parseFloatAux (l : List Char) : Option (ℚ × List Char) :=
  let signed : Bool × List Char :=
    match l with
    | '-' :: r => (true, r)
    | '+' :: r => (false, r)
    | _ => (false, l)
  let neg := signed.1
  let (ints, l2) := spanDigits signed.2
  let dotted : Option (List Char × List Char) :=
    match l2 with
    | '.' :: r =>
      let (fs, r2) := spanDigits r
      if ints.isEmpty && fs.isEmpty then none else some (fs, r2)
    | _ => if ints.isEmpty then none else some ([], l2)
  match dotted with
  | none => none
  | some (fracs, l3) =>
    let (e, l4) := parseExp l3
    some (ratOfParts neg (digitsVal (ints ++ fracs)) (e - fracs.length), l4)

/-- JavaScript `parseFloat`, restricted to the decimal-literal fragment:
`none` models `NaN`. -/
def parseFloat? (s : String) : Option ℚ :=
  (parseFloatAux (s.data.dropWhile isSpaceChar)).map Prod.fst

/-- `Modelled from the spec:` the spec's phrase "leaf string that is a
syntactically valid number" (§4.2): the whole string, with no surrounding
whitespace or trailing characters, matches the decimal-literal grammar.
Used only to compare the spec's wording with the source's `parseFloat`
prefix semantics. -/
def isSyntacticNumberString (s : String) : Bool :=
  match parseFloatAux s.data with
  | some (_, rest) => rest.isEmpty
  | none => false

/-! ## Response Normalizer (source lines 404-421) -/

/-- `transformString` (source lines 415-421): replace a string by its
`parseFloat` value unless that value is `NaN`. -/
def transformString (val : String) : JValue :=
  match parseFloat? val with
  | some q => .num q
  | none => .str val

mutual

/-- `parseObjectStrings` (source lines 404-413): recursively walk arrays
and objects, sending string leaves through `transformString` and leaving
every other leaf unchanged. -/
def parseObjectStrings : JValue → JValue
  | .arr l => .arr (parseList l)
  | .obj kvs => .obj (parseKVs kvs)
  | .str s => transformString s
  | .num q => .num q
  | .bool b => .bool b
  | .null => .null
  | .undefined => .undefined

/-- `val.map(parseObjectStrings)` on an array's elements. -/
def parseList : List JValue → List JValue
  | [] => []
  | v :: vs => parseObjectStrings v :: parseList vs

/-- `_.mapValues(val, parseObjectStrings)` on an object's entries. -/
def parseKVs : List (String × JValue) → List (String × JValue)
  | [] => []
  | (k, v) :: kvs => (k, parseObjectStrings v) :: parseKVs kvs

end

mutual

/-- The shape of a value: structure with leaves erased (`null`), so that
"same sequence length and ordering, same mapping key set" is exactly
equality of shapes. -/
def shape : JValue → JValue
  | .arr l => .arr (shapeList l)
  | .obj kvs => .obj (shapeKVs kvs)
  | _ => .null

def shapeList : List JValue → List JValue
  | [] => []
  | v :: vs => shape v :: shapeList vs

def shapeKVs : List (String × JValue) → List (String × JValue)
  | [] => []
  | (k, v) :: kvs => (k, shape v) :: shapeKVs kvs

end

/-! ## Decimal rendering

`natStr` renders a natural number in decimal (the rendering used by
`nonce.toString()`, `querystring.stringify`, and `String(n)` for integer
JS numbers).  `digitChar` maps a digit to its ASCII character. -/

def digitChar (d : Nat) : Char := Char.ofNat (48 + d % 10)

/-- Little-endian digit list of `n`; the fuel argument of `natDigitsAux`
bounds the recursion (any fuel above the digit count gives the digits). -/
def natDigitsAux : Nat → Nat → List Nat
  | 0, _ => []
  | fuel + 1, n => if n < 10 then [n] else n % 10 :: natDigitsAux fuel (n / 10)

def natDigits (n : Nat) : List Nat := natDigitsAux (n + 1) n

def natStr (n : Nat) : String :=
  String.mk ((natDigits n).reverse.map digitChar)

/-! ## Decimal-String Formatter (`maxDpStr`, source lines 398-402)

The source renders `parseFloat(str)` with `sprintf('%.8f', val)`.  The
`%.dpf` conversion is modelled exactly on the parsed rational: round the
scaled value half-up and print the integer part followed by exactly `dp`
fractional digits.  (C's `%f` applies the current float rounding to an
exact binary value; on the exact rationals of this model the half-way
cases are resolved upward, a difference no theorem below touches.) -/

/-- Exactly `dp` fractional digits of `fp < 10^dp`, most significant
first. -/
def fracDigitsStr (fp dp : Nat) : String :=
  String.mk ((List.range dp).map (fun i => digitChar (fp / 10 ^ (dp - 1 - i) % 10)))

/-- `sprintf('%.dpf', q)` for `q ≥ 0` (given as `num`/`den`):
`(2·num·10^dp + den) / (2·den)` is `⌊q·10^dp + 1/2⌋`. -/
def formatFixed (q : ℚ) (dp : Nat) : String :=
  let scaled := (2 * q.num.toNat * 10 ^ dp + q.den) / (2 * q.den)
  natStr (scaled / 10 ^ dp) ++
    (if dp = 0 then "" else "." ++ fracDigitsStr (scaled % 10 ^ dp) dp)

/-- `maxDpStr` (source lines 398-402): non-numeric strings pass through
unchanged, numeric ones are reformatted with exactly `dp` fractional
digits.  (The source's `str = ''` default parameter means a JS
`undefined` argument behaves as `maxDpStr "" dp = ""`.) -/
def maxDpStr (str : String) (dp : Nat) : String :=
  match parseFloat? str with
  | none => str
  | some q =>
    (if q < 0 then "-" else "") ++ formatFixed (if q < 0 then -q else q) dp

/-- Number of characters after the first `'.'` of a string (0 when no
`'.'` occurs): the count of emitted fractional digits. -/
def fracDigitCount (s : String) : Nat :=
  match s.data.dropWhile (fun c => c != '.') with
  | [] => 0
  | _ :: rest => rest.length

/-! ## JS `String(·)` on the modelled values

Needed by `openPosition` (`String(amount)` etc.) and `lastPrice`
(`parseFloat` coerces its argument to a string).  For a rational whose
reduced denominator divides a power of ten the exact (shortest) decimal
expansion is produced, which is what JS prints for the plain decimal
literals these endpoints handle; other denominators and the exponent
notation JS uses for extreme magnitudes are outside the modelled
fragment. -/

def ratDecString (q : ℚ) : String :=
  let sgn := if q.num < 0 then "-" else ""
  let n := q.num.natAbs
  let d := q.den
  match (List.range (d + 1)).find? (fun k => 10 ^ k % d = 0) with
  | some k =>
    let scaled := n * (10 ^ k / d)
    sgn ++ natStr (scaled / 10 ^ k) ++
      (if k = 0 then "" else "." ++ fracDigitsStr (scaled % 10 ^ k) k)
  | none => sgn ++ natStr n ++ "/" ++ natStr d

def jsToString : JValue → String
  | .str s => s
  | .num q => ratDecString q
  | .bool b => if b then "true" else "false"
  | .null => "null"
  | .undefined => "undefined"
  | .arr _ => ""
  | .obj _ => "[object Object]"

/-- ASCII `toLowerCase` (used on `ptype`). -/
def asciiLower (s : String) : String := String.mk (s.data.map Char.toLower)

/-- ASCII `toUpperCase` (used on the hex digest). -/
def asciiUpper (s : String) : String := String.mk (s.data.map Char.toUpper)

/-! ## HMAC-SHA256 (the `crypto` calls of `_postAuth`)

`crypto.createHmac('sha256', new Buffer(secret))` / `hmac.update(message)`
operate on the UTF-8 bytes of the secret and the message;
`hmac.digest('hex').toUpperCase()` renders the MAC in uppercase hex.
Bytes and 32-bit words are `Nat`s reduced mod `2^8` / `2^32`. -/

def utf8Char (c : Char) : List Nat :=
  let n := c.toNat
  if n < 128 then [n]
  else if n < 2048 then [192 ||| (n >>> 6), 128 ||| (n &&& 63)]
  else if n < 65536 then
    [224 ||| (n >>> 12), 128 ||| ((n >>> 6) &&& 63), 128 ||| (n &&& 63)]
  else
    [240 ||| (n >>> 18), 128 ||| ((n >>> 12) &&& 63),
     128 ||| ((n >>> 6) &&& 63), 128 ||| (n &&& 63)]

def utf8Bytes (s : String) : List Nat := (s.data.map utf8Char).flatten

def w32 (n : Nat) : Nat := n % 4294967296

def rotr32 (x n : Nat) : Nat := w32 ((x >>> n) ||| (x <<< (32 - n)))

def shaNot (x : Nat) : Nat := x ^^^ 4294967295

def shaCh (x y z : Nat) : Nat := (x &&& y) ^^^ (shaNot x &&& z)

def shaMaj (x y z : Nat) : Nat := (x &&& y) ^^^ (x &&& z) ^^^ (y &&& z)

def bigSigma0 (x : Nat) : Nat := rotr32 x 2 ^^^ rotr32 x 13 ^^^ rotr32 x 22

def bigSigma1 (x : Nat) : Nat := rotr32 x 6 ^^^ rotr32 x 11 ^^^ rotr32 x 25

def smallSigma0 (x : Nat) : Nat := rotr32 x 7 ^^^ rotr32 x 18 ^^^ (x >>> 3)

def smallSigma1 (x : Nat) : Nat := rotr32 x 17 ^^^ rotr32 x 19 ^^^ (x >>> 10)

/-- `n` as `k` big-endian bytes. -/
def beBytes (k n : Nat) : List Nat :=
  (List.range k).map (fun i => n / 256 ^ (k - 1 - i) % 256)

/-- Merkle-Damgård padding: `0x80`, zeros to 56 mod 64, 8-byte bit length. -/
def sha256Pad (msg : List Nat) : List Nat :=
  msg ++ [128] ++ List.replicate ((119 - msg.length % 64) % 64) 0 ++
    beBytes 8 (8 * msg.length)

def bytesToWords : List Nat → List Nat
  | b0 :: b1 :: b2 :: b3 :: rest =>
    (((b0 * 256 + b1) * 256 + b2) * 256 + b3) :: bytesToWords rest
  | _ => []

def chunks16 : List Nat → List (List Nat)
  | [] => []
  | w :: ws => ((w :: ws).take 16) :: chunks16 ((w :: ws).drop 16)
termination_by l => l.length
decreasing_by simp [List.length_drop]; omega

def shaK : List Nat :=
  [1116352408, 1899447441, 3049323471, 3921009573, 961987163,
   1508970993, 2453635748, 2870763221, 3624381080, 310598401,
   607225278, 1426881987, 1925078388, 2162078206, 2614888103,
   3248222580, 3835390401, 4022224774, 264347078, 604807628,
   770255983, 1249150122, 1555081692, 1996064986, 2554220882,
   2821834349, 2952996808, 3210313671, 3336571891, 3584528711,
   113926993, 338241895, 666307205, 773529912, 1294757372,
   1396182291, 1695183700, 1986661051, 2177026350, 2456956037,
   2730485921, 2820302411, 3259730800, 3345764771, 3516065817,
   3600352804, 4094571909, 275423344, 430227734, 506948616,
   659060556, 883997877, 958139571, 1322822218, 1537002063,
   1747873779, 1955562222, 2024104815, 2227730452, 2361852424,
   2428436474, 2756734187, 3204031479, 3329325298]

def shaH0 : List Nat :=
  [1779033703, 3144134277, 1013904242, 2773480762,
   1359893119, 2600822924, 528734635, 1541459225]

/-- Extend a 16-word block to the 64-word message schedule. -/
def shaSchedule (block : List Nat) : List Nat :=
  (List.range 48).foldl
    (fun ws i =>
      ws ++ [w32 (smallSigma1 (ws.getD (i + 14) 0) + ws.getD (i + 9) 0 +
                  smallSigma0 (ws.getD (i + 1) 0) + ws.getD i 0)])
    block

def shaRound (st : List Nat) (kw : Nat × Nat) : List Nat :=
  match st with
  | [a, b, c, d, e, f, g, h] =>
    let t1 := w32 (h + bigSigma1 e + shaCh e f g + kw.1 + kw.2)
    let t2 := w32 (bigSigma0 a + shaMaj a b c)
    [w32 (t1 + t2), a, b, c, w32 (d + t1), e, f, g]
  | other => other

def shaCompress (H block : List Nat) : List Nat :=
  let st := (shaK.zip (shaSchedule block)).foldl shaRound H
  (H.zip st).map (fun p => w32 (p.1 + p.2))

def sha256 (msg : List Nat) : List Nat :=
  let H := (chunks16 (bytesToWords (sha256Pad msg))).foldl shaCompress shaH0
  (H.map (beBytes 4)).flatten

/-- HMAC with the SHA-256 block size of 64 bytes (RFC 2104). -/
def hmacSha256 (key msg : List Nat) : List Nat :=
  let k0 := if 64 < key.length then sha256 key else key
  let kp := k0 ++ List.replicate (64 - k0.length) 0
  sha256 ((kp.map (fun b => b ^^^ 92)) ++ sha256 ((kp.map (fun b => b ^^^ 54)) ++ msg))

def hexDigitLower (n : Nat) : Char :=
  if n < 10 then Char.ofNat (48 + n) else Char.ofNat (87 + n % 16)

def bytesToHexLower (bs : List Nat) : String :=
  String.mk ((bs.map (fun b => [hexDigitLower (b / 16 % 16), hexDigitLower (b % 16)])).flatten)

/-- `digest('hex').toUpperCase()`. -/
def hexUpper (bs : List Nat) : String := asciiUpper (bytesToHexLower bs)

/-! ## Request Signer (`_postAuth`, source lines 278-292)

The signed request body is a mapping from parameter name to string value
(the spec's §3 data model); `querystring.stringify`'s value rendering is
folded into the construction, so the generated `nonce` number enters the
body as its decimal string. -/

/-- Lookup of a field in a signed body. -/
def getField : List (String × String) → String → Option String
  | [], _ => none
  | (k, v) :: rest, key => if k = key then some v else getField rest key

/-- JS property write `target[k] = v` on an insertion-ordered object:
updates the (unique) existing key in place, otherwise appends. -/
def setKey : List (String × String) → String → String → List (String × String)
  | [], k, v => [(k, v)]
  | (k₁, v₁) :: rest, k, v =>
    if k₁ = k then (k, v) :: rest else (k₁, v₁) :: setKey rest k v

/-- `Object.assign(target, source)`: copy the source's entries onto the
target in order, each write later-wins. -/
def objAssign (target source : List (String × String)) :
    List (String × String) :=
  source.foldl (fun acc p => setKey acc p.1 p.2) target

/-- The signed body built by `_postAuth` (source lines 282-291):
`Object.assign({ nonce, key }, params)`, then
`params.signature = hmac.digest('hex').toUpperCase()` where the HMAC
message is `nonce.toString() + this.clientId + this.key`. -/
def postAuthParams (nonce : Nat) (clientId key secret : String)
    (params : List (String × String)) : List (String × String) :=
  let merged := objAssign [("nonce", natStr nonce), ("key", key)] params
  let message := natStr nonce ++ clientId ++ key
  setKey merged "signature"
    (hexUpper (hmacSha256 (utf8Bytes secret) (utf8Bytes message)))

/-- The request a `_postAuth` call hands to the transport: the path and
the already-serialized signed body.  Built once per logical call, before
the retrying transport runs. -/
structure SentRequest where
  url : String
  body : List (String × String)

def postAuthCall (nonce : Nat) (clientId key secret : String)
    (path : String) (params : List (String × String)) : SentRequest :=
  ⟨path, postAuthParams nonce clientId key secret params⟩

/-! ## Retrying Transport Wrapper (constructor, source lines 178-196)

`this.req = req || (params => retry(() => request(params), retryParams))`
with `retryParams = Object.assign({}, defaultRetryOptions, retryOptions)`.
`retry` is `p-retry`/`node-retry`: run the function, and on rejection
sleep `min(maxTimeout, minTimeout · factor^(attempt-1))` and run it
again, up to `retries` additional attempts, then surface the last error.
The transport is modelled as a function from the (1-based attempt
number − 1) and the fixed request to a decoded payload or a
transport-level error; the executor returns the result together with the
trace of requests transmitted and the backoff delays slept. -/

structure RetryOptions where
  retries : Nat
  factor : Nat
  minTimeout : Nat
  maxTimeout : Nat

def defaultRetryOptions : RetryOptions := ⟨10, 2, 500, 10000⟩

/-- Caller-supplied `retryOptions`: absent fields fall back to the
defaults under `Object.assign({}, defaultRetryOptions, retryOptions)`. -/
structure RetryOverrides where
  retries : Option Nat
  factor : Option Nat
  minTimeout : Option Nat
  maxTimeout : Option Nat

def mergeRetryOptions (o : RetryOverrides) : RetryOptions :=
  ⟨o.retries.getD defaultRetryOptions.retries,
   o.factor.getD defaultRetryOptions.factor,
   o.minTimeout.getD defaultRetryOptions.minTimeout,
   o.maxTimeout.getD defaultRetryOptions.maxTimeout⟩

/-- Backoff slept after the failed attempt with 0-based index `k`
(1-based attempt number `n = k+1`): `min(maxTimeout, minTimeout·factor^k)`. -/
def delayAfter (opts : RetryOptions) (k : Nat) : Nat :=
  min opts.maxTimeout (opts.minTimeout * opts.factor ^ k)

def isErrorE (r : Except String JValue) : Bool :=
  match r with
  | .error _ => true
  | .ok _ => false

/-- One `p-retry` execution starting at attempt index `k` with `fuel`
retries remaining: result, trace of transmitted requests, delays slept. -/
def retryGo (opts : RetryOptions) (rp : SentRequest)
    (net : Nat → SentRequest → Except String JValue) :
    Nat → Nat → Except String JValue × List SentRequest × List Nat
  | k, 0 => (net k rp, [rp], [])
  | k, fuel + 1 =>
    match net k rp with
    | .ok v => (.ok v, [rp], [])
    | .error _ =>
      let rest := retryGo opts rp net (k + 1) fuel
      (rest.1, rp :: rest.2.1, delayAfter opts k :: rest.2.2)

/-- The whole wrapped transport call: first attempt plus up to
`opts.retries` retries. -/
def retryRun (opts : RetryOptions) (rp : SentRequest)
    (net : Nat → SentRequest → Except String JValue) :
    Except String JValue × List SentRequest × List Nat :=
  retryGo opts rp net 0 opts.retries

/-- An error surfaced by an endpoint: transport failure, or an
application-level rejection carrying the raw decoded payload. -/
inductive CallError where
  | transport : String → CallError
  | notOk : String → JValue → CallError

/-- `_get` after the transport resolves (source lines 198-205):
`if (!res || (res.ok && res.ok !== 'ok')) throw` then
`parseObjectStrings(res.data ? res.data : res)`.  Composed with the
retrying transport; the shape check adds no transport attempts. -/
def getPipeline (opts : RetryOptions) (rp : SentRequest)
    (net : Nat → SentRequest → Except String JValue) :
    Except CallError JValue × List SentRequest :=
  match retryRun opts rp net with
  | (.error e, tr, _) => (.error (.transport e), tr)
  | (.ok res, tr, _) =>
    if !(jsTruthy res) || (jsTruthy (jsGet res "ok") && !(jsStrictEqStr (jsGet res "ok") "ok")) then
      (.error (.notOk "result not ok" res), tr)
    else
      (.ok (parseObjectStrings (if jsTruthy (jsGet res "data") then jsGet res "data" else res)), tr)

/-! ## Endpoint Method Surface: response validation

Each authenticated endpoint method awaits the decoded payload and
validates it before normalizing.  These handlers are the part of each
method after the transport resolves; `_postAuth`/`_post` perform no
validation of their own. -/

/-- An endpoint failure: `new Error(message)` with `err.data = result`
attached (`data := .undefined` models an error with no `data` set). -/
structure ApiError where
  message : String
  data : JValue

/-- `balance()` (source lines 298-308): only `!result` is checked — the
`ok` field is **not** consulted. -/
def balanceHandle (result : JValue) : Except ApiError JValue :=
  if !(jsTruthy result) then
    .error ⟨"Could not get open orders", result⟩
  else .ok (parseObjectStrings result)

/-- `openOrders()` without a pair (source lines 314-322): same check as
`balance`. -/
def openOrdersHandle (result : JValue) : Except ApiError JValue :=
  if !(jsTruthy result) then
    .error ⟨"Could not get open orders", result⟩
  else .ok (parseObjectStrings result)

/-- `openOrders(ccy1, ccy2)` with a pair (source lines 311-313): the raw
decoded payload is returned with no validation and no normalization. -/
def openOrdersPairHandle (result : JValue) : Except ApiError JValue :=
  .ok result

/-- `activeOrdersStatus` (source lines 325-335):
`if (!result || result.ok !== 'ok') throw` then
`parseObjectStrings(result.data)`. -/
def activeOrdersStatusHandle (result : JValue) : Except ApiError JValue :=
  if !(jsTruthy result) || !(jsStrictEqStr (jsGet result "ok") "ok") then
    .error ⟨"Could not get active order statuses", result⟩
  else .ok (parseObjectStrings (jsGet result "data"))

/-- `openPositions` (source lines 337-347). -/
def openPositionsHandle (result : JValue) : Except ApiError JValue :=
  if !(jsTruthy result) || !(jsStrictEqStr (jsGet result "ok") "ok") then
    .error ⟨"Could not get open positions", result⟩
  else .ok (parseObjectStrings (jsGet result "data"))

/-- `closePosition` (source lines 349-359). -/
def closePositionHandle (result : JValue) : Except ApiError JValue :=
  if !(jsTruthy result) || !(jsStrictEqStr (jsGet result "ok") "ok") then
    .error ⟨"Could not close position", result⟩
  else .ok (parseObjectStrings (jsGet result "data"))

/-- `openPosition`'s response validation (source lines 386-392). -/
def openPositionHandle (result : JValue) : Except ApiError JValue :=
  if !(jsTruthy result) || !(jsStrictEqStr (jsGet result "ok") "ok") then
    .error ⟨"Could not open position", result⟩
  else .ok (parseObjectStrings (jsGet result "data"))

/-- `lastPrice()` (source lines 237-243):
`if (!res || !res.lprice) throw new Error('Unexpected response')` then
`parseFloat(res.lprice)` (`none` models a `NaN` return). -/
def lastPriceHandle (res : JValue) : Except String (Option ℚ) :=
  if !(jsTruthy res) || !(jsTruthy (jsGet res "lprice")) then
    .error "Unexpected response"
  else .ok (parseFloat? (jsToString (jsGet res "lprice")))

/-! ## `openPosition` request building (source lines 361-384) -/

/-- The destructured argument object of `openPosition(args)`.  `Option`
fields model properties that may be absent (JS `undefined` triggers the
destructuring default); `eoprice` and `stopLossPrice` are kept as raw
JS values because the source applies `String(·)` / truthiness to them. -/
structure OpenPositionArgs where
  amount : JValue
  symbol : Option String
  msymbol : Option String
  ptype : Option String
  anySlippage : Option JValue
  leverage : Option JValue
  eoprice : JValue
  stopLossPrice : JValue

/-- The `params` object `openPosition` passes to `_postAuthPair`
(source lines 373-382).  `maxDpStr(stopLossPrice ? String(stopLossPrice)
: undefined)` evaluates to `maxDpStr "" 8 = ""` for a falsy
`stopLossPrice` because of `maxDpStr`'s `str = ''` default parameter. -/
def openPositionParams (args : OpenPositionArgs) (ccy1 : String) :
    List (String × String) :=
  [("amount", maxDpStr (jsToString args.amount) 8),
   ("symbol", args.symbol.getD ccy1),
   ("msymbol", args.msymbol.getD ccy1),
   ("ptype", asciiLower (args.ptype.getD "long")),
   ("anySlippage", if jsTruthy (args.anySlippage.getD (.bool true)) then "true" else "false"),
   ("leverage", jsToString (args.leverage.getD (.num 3))),
   ("eoprice", maxDpStr (jsToString args.eoprice) 8),
   ("stopLossPrice",
     if jsTruthy args.stopLossPrice then maxDpStr (jsToString args.stopLossPrice) 8
     else maxDpStr "" 8)]

/-! ## Shared lemmas -/

theorem getField_setKey_self (m : List (String × String)) (key v : String) :
    getField (setKey m key v) key = some v := by
  induction m with
  | nil => simp [setKey, getField]
  | cons p rest ih =>
    obtain ⟨k₁, v₁⟩ := p
    by_cases hk : k₁ = key
    · simp [setKey, hk, getField]
    · simp [setKey, hk, getField, ih]

theorem getField_setKey_ne {k other : String} (m : List (String × String))
    (v : String) (h : other ≠ k) :
    getField (setKey m k v) other = getField m other := by
  induction m with
  | nil => simp [setKey, getField, Ne.symm h]
  | cons p rest ih =>
    obtain ⟨k₁, v₁⟩ := p
    by_cases hk : k₁ = k
    · subst hk
      simp [setKey, getField, Ne.symm h]
    · simp [setKey, hk, getField, ih]

theorem getField_objAssign_not_src {source : List (String × String)}
    {key : String} (target : List (String × String))
    (h : source.any (fun p => p.1 = key) = false) :
    getField (objAssign target source) key = getField target key := by
  induction source generalizing target with
  | nil => rfl
  | cons p rest ih =>
    obtain ⟨k, v⟩ := p
    simp only [List.any_cons, Bool.or_eq_false_iff, decide_eq_false_iff_not] at h
    have step : objAssign target ((k, v) :: rest)
        = objAssign (setKey target k v) rest := rfl
    rw [step, ih _ h.2, getField_setKey_ne target v (fun hh => h.1 hh.symm)]

mutual

theorem shape_parseObjectStrings : (v : JValue) →
    shape (parseObjectStrings v) = shape v
  | .arr l => by simp [parseObjectStrings, shape, shapeList_parseList l]
  | .obj kvs => by simp [parseObjectStrings, shape, shapeKVs_parseKVs kvs]
  | .str s => by
    simp only [parseObjectStrings, transformString]
    cases parseFloat? s <;> simp [shape]
  | .num q => by simp [parseObjectStrings]
  | .bool b => by simp [parseObjectStrings]
  | .null => by simp [parseObjectStrings]
  | .undefined => by simp [parseObjectStrings]

theorem shapeList_parseList : (l : List JValue) →
    shapeList (parseList l) = shapeList l
  | [] => rfl
  | v :: vs => by
    simp [parseList, shapeList, shape_parseObjectStrings v, shapeList_parseList vs]

theorem shapeKVs_parseKVs : (l : List (String × JValue)) →
    shapeKVs (parseKVs l) = shapeKVs l
  | [] => rfl
  | (k, v) :: kvs => by
    simp [parseKVs, shapeKVs, shape_parseObjectStrings v, shapeKVs_parseKVs kvs]

end

mutual

theorem parseObjectStrings_idem_aux : (v : JValue) →
    parseObjectStrings (parseObjectStrings v) = parseObjectStrings v
  | .arr l => by simp [parseObjectStrings, parseList_idem_aux l]
  | .obj kvs => by simp [parseObjectStrings, parseKVs_idem_aux kvs]
  | .str s => by
    cases h : parseFloat? s with
    | some q => simp [parseObjectStrings, transformString, h]
    | none => simp [parseObjectStrings, transformString, h]
  | .num q => by simp [parseObjectStrings]
  | .bool b => by simp [parseObjectStrings]
  | .null => by simp [parseObjectStrings]
  | .undefined => by simp [parseObjectStrings]

theorem parseList_idem_aux : (l : List JValue) →
    parseList (parseList l) = parseList l
  | [] => rfl
  | v :: vs => by
    simp [parseList, parseObjectStrings_idem_aux v, parseList_idem_aux vs]

theorem parseKVs_idem_aux : (l : List (String × JValue)) →
    parseKVs (parseKVs l) = parseKVs l
  | [] => rfl
  | (k, v) :: kvs => by
    simp [parseKVs, parseObjectStrings_idem_aux v, parseKVs_idem_aux kvs]

end

theorem dropWhile_append_all {p : Char → Bool} {l₁ l₂ : List Char}
    (h : ∀ c ∈ l₁, p c = true) :
    List.dropWhile p (l₁ ++ l₂) = List.dropWhile p l₂ := by
  induction l₁ with
  | nil => rfl
  | cons c cs ih =>
    have hc := h c (by simp)
    simp only [List.cons_append, List.dropWhile_cons, hc, if_true]
    exact ih (fun x hx => h x (by simp [hx]))

theorem digitChar_bne_dot (d : Nat) : (digitChar d != '.') = true := by
  have h : d % 10 < 10 := Nat.mod_lt _ (by norm_num)
  have key : ∀ e, e < 10 → (Char.ofNat (48 + e) != '.') = true := by decide
  exact key (d % 10) h

theorem natStr_chars_ne_dot (n : Nat) :
    ∀ c ∈ (natStr n).data, (c != '.') = true := by
  intro c hc
  simp only [natStr] at hc
  rcases List.mem_map.mp (by simpa using hc) with ⟨d, _, rfl⟩
  exact digitChar_bne_dot d

theorem fracDigitCount_of_parts (sign : String)
    (hsign : ∀ c ∈ sign.data, (c != '.') = true) (n fp dp : Nat) :
    fracDigitCount (sign ++ (natStr n ++ ("." ++ fracDigitsStr fp dp))) = dp := by
  unfold fracDigitCount
  have hdata : (sign ++ (natStr n ++ ("." ++ fracDigitsStr fp dp))).data
      = (sign.data ++ (natStr n).data) ++
        ('.' :: ((List.range dp).map (fun i => digitChar (fp / 10 ^ (dp - 1 - i) % 10)))) := by
    simp [String.data_append, fracDigitsStr]
  rw [hdata, dropWhile_append_all ?hpre]
  case hpre =>
    intro c hc
    rcases List.mem_append.mp hc with h1 | h1
    · exact hsign c h1
    · exact natStr_chars_ne_dot n c h1
  simp [List.dropWhile_cons]

theorem formatFixed_eq8 (q : ℚ) :
    formatFixed q 8
      = natStr ((2 * q.num.toNat * 10 ^ 8 + q.den) / (2 * q.den) / 10 ^ 8)
        ++ ("." ++ fracDigitsStr ((2 * q.num.toNat * 10 ^ 8 + q.den) / (2 * q.den) % 10 ^ 8) 8) := by
  simp [formatFixed]

theorem retryGo_trace_mem (opts : RetryOptions) (rp : SentRequest)
    (net : Nat → SentRequest → Except String JValue) :
    ∀ fuel k x, x ∈ (retryGo opts rp net k fuel).2.1 → x = rp := by
  intro fuel
  induction fuel with
  | zero =>
    intro k x hx
    simpa [retryGo] using hx
  | succ f ih =>
    intro k x hx
    cases h : net k rp with
    | ok v =>
      simp only [retryGo, h] at hx
      simpa using hx
    | error e =>
      simp only [retryGo, h] at hx
      rcases (List.mem_cons).mp hx with h1 | h1
      · exact h1
      · exact ih (k + 1) x h1

theorem retryGo_trace_replicate (opts : RetryOptions) (rp : SentRequest)
    (net : Nat → SentRequest → Except String JValue) (fuel k : Nat) :
    (retryGo opts rp net k fuel).2.1
      = List.replicate (retryGo opts rp net k fuel).2.1.length rp :=
  List.eq_replicate_iff.mpr ⟨rfl, fun _ hb => retryGo_trace_mem opts rp net fuel k _ hb⟩

theorem retryGo_first_success (opts : RetryOptions) (rp : SentRequest)
    (net : Nat → SentRequest → Except String JValue) :
    ∀ (j : Nat), ∀ k fuel v, j ≤ fuel →
      (∀ i, i < j → isErrorE (net (k + i) rp) = true) →
      net (k + j) rp = .ok v →
      retryGo opts rp net k fuel
        = (.ok v, List.replicate (j + 1) rp,
           (List.range j).map (fun i => delayAfter opts (k + i))) := by
  intro j
  induction j with
  | zero =>
    intro k fuel v _ _ hok
    simp only [Nat.add_zero] at hok
    cases fuel <;> simp [retryGo, hok, List.replicate_succ]
  | succ j ih =>
    intro k fuel v hle hfail hok
    have h0 : isErrorE (net k rp) = true := by
      simpa using hfail 0 (Nat.succ_pos j)
    cases herr : net k rp with
    | ok v' => rw [herr] at h0; simp [isErrorE] at h0
    | error e =>
      cases fuel with
      | zero => omega
      | succ f =>
        have hle2 : j ≤ f := Nat.succ_le_succ_iff.mp hle
        have hfail2 : ∀ i, i < j → isErrorE (net (k + 1 + i) rp) = true := by
          intro i hi
          have hstep := hfail (i + 1) (Nat.succ_lt_succ hi)
          rwa [show k + (i + 1) = k + 1 + i by omega] at hstep
        have hok2 : net (k + 1 + j) rp = .ok v := by
          rw [show k + 1 + j = k + (j + 1) by omega]; exact hok
        have harg : (fun i => delayAfter opts (k + 1 + i))
            = (fun i => delayAfter opts (k + (i + 1))) := by
          funext i; congr 1; omega
        simp only [retryGo, herr]
        rw [ih (k + 1) f v hle2 hfail2 hok2]
        simp [List.replicate_succ, List.range_succ_eq_map, List.map_map,
          Function.comp, harg]

theorem retryGo_all_fail (opts : RetryOptions) (rp : SentRequest)
    (net : Nat → SentRequest → Except String JValue) :
    ∀ fuel k, (∀ i, i ≤ fuel → isErrorE (net (k + i) rp) = true) →
      (retryGo opts rp net k fuel).1 = net (k + fuel) rp := by
  intro fuel
  induction fuel with
  | zero =>
    intro k h
    simp [retryGo]
  | succ f ih =>
    intro k h
    have h0 := h 0 (Nat.zero_le _)
    simp only [Nat.add_zero] at h0
    cases herr : net k rp with
    | ok v => rw [herr] at h0; simp [isErrorE] at h0
    | error e =>
      simp only [retryGo, herr]
      rw [ih (k + 1) (fun i hi => by
        have hstep := h (i + 1) (Nat.succ_le_succ hi)
        rwa [show k + (i + 1) = k + 1 + i by omega] at hstep)]
      congr 1
      omega

theorem getField_postAuthParams_nonce (nonce : Nat)
    (clientId key secret : String) (p : List (String × String))
    (hp : p.any (fun q => q.1 = "nonce") = false) :
    getField (postAuthParams nonce clientId key secret p) "nonce"
      = some (natStr nonce) := by
  simp only [postAuthParams]
  rw [getField_setKey_ne _ _ (by decide : "nonce" ≠ "signature"),
    getField_objAssign_not_src _ hp]
  simp [getField]

theorem getField_postAuthParams_key (nonce : Nat)
    (clientId key secret : String) (p : List (String × String))
    (hp : p.any (fun q => q.1 = "key") = false) :
    getField (postAuthParams nonce clientId key secret p) "key" = some key := by
  simp only [postAuthParams]
  rw [getField_setKey_ne _ _ (by decide : "key" ≠ "signature"),
    getField_objAssign_not_src _ hp]
  simp [getField]

/-! ## Claims -/

/-- C1: the `signature` field of every signed body equals the uppercase
hexadecimal rendering of HMAC-SHA256, keyed with the UTF-8 bytes of the
API secret, of the message `nonce.toString() + clientId + key`; and the
signature does not depend on the caller-supplied parameters, so
recomputing with identical `(nonce, clientId, key, secret)` — even under
different endpoint parameters — yields the same signature. -/
theorem postAuth_signature_correct (nonce : Nat) (clientId key secret : String)
    (p₁ p₂ : List (String × String)) :
    getField (postAuthParams nonce clientId key secret p₁) "signature"
      = some (hexUpper (hmacSha256 (utf8Bytes secret)
          (utf8Bytes (natStr nonce ++ clientId ++ key))))
    ∧ getField (postAuthParams nonce clientId key secret p₁) "signature"
      = getField (postAuthParams nonce clientId key secret p₂) "signature" := by
  constructor
  · simp only [postAuthParams]
    exact getField_setKey_self _ _ _
  · simp only [postAuthParams]
    rw [getField_setKey_self, getField_setKey_self]

/-- C2 counterexample: `Object.assign({ nonce, key }, params)` lets the
caller's mapping win the merge — with caller entry `("nonce", "42")` and
generated nonce 1000 the signed body's `nonce` field is `"42"`, not
`"1000"`.-/
theorem postAuth_caller_overrides_nonce_cex :
    getField (postAuthParams 1000 "clientId" "key" "secret" [("nonce", "42")])
        "nonce" = some "42"
    ∧ natStr 1000 ≠ "42" := by
  exact ⟨rfl, by decide⟩

/-- C2 (amended): the signed body carries the freshly generated nonce as
`nonce` and the configured API key as `key` exactly when the caller's
mapping contains no entries of those names; a caller-supplied `nonce`
entry overrides the generated value (the merge is later-wins). -/
theorem postAuth_nonce_key_fields (nonce : Nat)
    (clientId key secret v : String) (p : List (String × String)) :
    (p.any (fun q => q.1 = "nonce") = false →
      getField (postAuthParams nonce clientId key secret p) "nonce"
        = some (natStr nonce))
    ∧ (p.any (fun q => q.1 = "key") = false →
      getField (postAuthParams nonce clientId key secret p) "key" = some key)
    ∧ (p.any (fun q => q.1 = "nonce") = false →
      getField (postAuthParams nonce clientId key secret (("nonce", v) :: p))
        "nonce" = some v) := by
  refine ⟨getField_postAuthParams_nonce nonce clientId key secret p,
    getField_postAuthParams_key nonce clientId key secret p, ?_⟩
  intro hp
  simp only [postAuthParams]
  rw [getField_setKey_ne _ _ (by decide : "nonce" ≠ "signature")]
  rw [show objAssign [("nonce", natStr nonce), ("key", key)] (("nonce", v) :: p)
        = objAssign (setKey [("nonce", natStr nonce), ("key", key)] "nonce" v) p
      from rfl]
  rw [getField_objAssign_not_src _ hp]
  exact getField_setKey_self _ _ _

theorem postAuth_nonce_key_fields_witness :
    getField (postAuthParams 7 "cid" "k" "s" [("id", "5")]) "nonce"
        = some (natStr 7)
    ∧ getField (postAuthParams 7 "cid" "k" "s" [("id", "5")]) "key" = some "k" :=
  ⟨(postAuth_nonce_key_fields 7 "cid" "k" "s" "x" [("id", "5")]).1 (by decide),
   (postAuth_nonce_key_fields 7 "cid" "k" "s" "x" [("id", "5")]).2.1 (by decide)⟩

/-- C6: the signed request (hence the nonce and signature) is built once
per logical call, before the transport runs: every request in the
retrying transport's transmission trace is that one request, so every
retry attempt transmits the identical nonce; and a call whose parameters
do not name `nonce` transmits exactly its own generated nonce. -/
theorem postAuth_nonce_once_per_call (opts : RetryOptions) (rp : SentRequest)
    (net : Nat → SentRequest → Except String JValue) (nonce : Nat)
    (clientId key secret path : String) (p : List (String × String)) :
    (retryRun opts rp net).2.1
      = List.replicate (retryRun opts rp net).2.1.length rp
    ∧ (p.any (fun q => q.1 = "nonce") = false →
        getField (postAuthCall nonce clientId key secret path p).body "nonce"
          = some (natStr nonce)) := by
  constructor
  · exact retryGo_trace_replicate opts rp net opts.retries 0
  · intro hp
    exact getField_postAuthParams_nonce nonce clientId key secret p hp

theorem postAuth_nonce_once_per_call_witness :
    getField (postAuthCall 7 "cid" "k" "s" "balance/" []).body "nonce"
      = some (natStr 7) :=
  (postAuth_nonce_once_per_call ⟨1, 2, 500, 10000⟩ ⟨"u", []⟩
    (fun _ _ => .ok .null) 7 "cid" "k" "s" "balance/" []).2 (by decide)

/-- C3 counterexample: `"12px"` is not a syntactically valid number, yet
the normalizer does not return it unchanged — it replaces it by the
number 12 that `parseFloat` reads from its prefix. -/
theorem normalizer_prefix_cex :
    isSyntacticNumberString "12px" = false
    ∧ parseObjectStrings (.str "12px") = .num 12
    ∧ parseObjectStrings (.str "12px") ≠ .str "12px" := by
  refine ⟨by decide, rfl, ?_⟩
  intro h
  exact JValue.noConfusion
    ((rfl : parseObjectStrings (.str "12px") = JValue.num 12).symm.trans h)

/-- C3 (amended): normalization preserves shape exactly (same sequence
length and ordering, same mapping keys in order), replaces each leaf
string from which `parseFloat` extracts a numeric prefix by that parsed
value — including strings such as `"12px"` that are not syntactically
valid numbers in full — and returns strings with no numeric prefix,
numbers, booleans, null and undefined unchanged. -/
theorem normalizer_shape_and_leaves :
    (∀ v, shape (parseObjectStrings v) = shape v)
    ∧ (∀ s q, parseFloat? s = some q → parseObjectStrings (.str s) = .num q)
    ∧ (∀ s, parseFloat? s = none → parseObjectStrings (.str s) = .str s)
    ∧ (∀ q, parseObjectStrings (.num q) = .num q)
    ∧ (∀ b, parseObjectStrings (.bool b) = .bool b)
    ∧ parseObjectStrings .null = .null
    ∧ parseObjectStrings .undefined = .undefined := by
  refine ⟨shape_parseObjectStrings, ?_, ?_, ?_, ?_, ?_, ?_⟩
  · intro s q h
    simp [parseObjectStrings, transformString, h]
  · intro s h
    simp [parseObjectStrings, transformString, h]
  · intro q; simp [parseObjectStrings]
  · intro b; simp [parseObjectStrings]
  · simp [parseObjectStrings]
  · simp [parseObjectStrings]

theorem normalizer_shape_and_leaves_witness :
    parseObjectStrings (.str "400.00") = .num 400
    ∧ parseObjectStrings (.str "BTC") = .str "BTC" :=
  ⟨normalizer_shape_and_leaves.2.1 "400.00" 400 (by decide),
   normalizer_shape_and_leaves.2.2.1 "BTC" (by decide)⟩

/-- C10: the Response Normalizer is idempotent — a second pass changes
nothing. -/
theorem normalizer_idempotent (v : JValue) :
    parseObjectStrings (parseObjectStrings v) = parseObjectStrings v :=
  parseObjectStrings_idem_aux v

/-- C4: at maximum precision 8, an input that parses as a number is
formatted with at most 8 fractional digits, and an input that does not
parse is returned unchanged — in particular
`maxDpStr "not-a-number" 8 = "not-a-number"`. -/
theorem maxDpStr_spec :
    (∀ s q, parseFloat? s = some q → fracDigitCount (maxDpStr s 8) ≤ 8)
    ∧ (∀ s, parseFloat? s = none → maxDpStr s 8 = s)
    ∧ maxDpStr "not-a-number" 8 = "not-a-number" := by
  refine ⟨?_, ?_, by decide⟩
  · intro s q h
    have hs : maxDpStr s 8
        = (if q < 0 then "-" else "") ++ formatFixed (if q < 0 then -q else q) 8 := by
      simp [maxDpStr, h]
    have hsign : ∀ c ∈ (if q < 0 then "-" else "").data, (c != '.') = true := by
      split <;> decide
    rw [hs, formatFixed_eq8, fracDigitCount_of_parts _ hsign]
  · intro s h
    simp [maxDpStr, h]

theorem maxDpStr_spec_witness :
    fracDigitCount (maxDpStr "650.3232" 8) ≤ 8 ∧ maxDpStr "BTC" 8 = "BTC" :=
  ⟨maxDpStr_spec.1 "650.3232" (mkRat 6503232 10000) (by decide),
   maxDpStr_spec.2.1 "BTC" (by decide)⟩

theorem retryGo_trace_length (opts : RetryOptions) (rp : SentRequest)
    (net : Nat → SentRequest → Except String JValue) :
    ∀ fuel k, (retryGo opts rp net k fuel).2.1.length ≤ fuel + 1 := by
  intro fuel
  induction fuel with
  | zero =>
    intro k
    simp [retryGo]
  | succ f ih =>
    intro k
    cases h : net k rp with
    | ok v => simp [retryGo, h]
    | error e =>
      simp only [retryGo, h, List.length_cons]
      exact Nat.succ_le_succ (ih (k + 1))

/-- C5: the wrapped transport retries only on transport-level failure —
if the first `j` attempts fail and attempt `j+1` succeeds (`j ≤ retries`)
the result is that success, `j+1` requests were transmitted, and the
delay slept after the `n`-th attempt (1-based; 0-based index below) is
`min(maxTimeout, minTimeout · factor^(n-1))`; if every attempt fails the
last failure is surfaced, and never more than `retries + 1` requests are
transmitted; a payload the transport decodes successfully is never
retried (one attempt, even when the `ok` check then rejects it — the
`_get` pipeline adds no transport attempts); under `{retries: 1}` a
transport failing once then succeeding yields the success after exactly
one retry with the 500 ms minimum delay. -/
theorem retry_policy_spec :
    (∀ (opts : RetryOptions) (rp : SentRequest) net j v, j ≤ opts.retries →
      (∀ i, i < j → isErrorE (net i rp) = true) → net j rp = .ok v →
      retryRun opts rp net
        = (.ok v, List.replicate (j + 1) rp,
           (List.range j).map
             (fun n => min opts.maxTimeout (opts.minTimeout * opts.factor ^ n))))
    ∧ (∀ (opts : RetryOptions) (rp : SentRequest) net,
        (∀ i, i ≤ opts.retries → isErrorE (net i rp) = true) →
        (retryRun opts rp net).1 = net opts.retries rp)
    ∧ (∀ (opts : RetryOptions) (rp : SentRequest) net,
        (retryRun opts rp net).2.1.length ≤ opts.retries + 1)
    ∧ (∀ (opts : RetryOptions) (rp : SentRequest) net p,
        net 0 rp = .ok p → (retryRun opts rp net).2.1 = [rp])
    ∧ (∀ (opts : RetryOptions) (rp : SentRequest) net,
        (getPipeline opts rp net).2 = (retryRun opts rp net).2.1)
    ∧ (retryRun (mergeRetryOptions ⟨some 1, none, none, none⟩) ⟨"u", []⟩
         (fun k _ => if k = 0 then .error "transport failure" else .ok (.str "yay"))
       = (.ok (.str "yay"), [⟨"u", []⟩, ⟨"u", []⟩], [500])) := by
  refine ⟨?_, ?_, ?_, ?_, ?_, ?_⟩
  · intro opts rp net j v hle hfail hok
    have hfail0 : ∀ i, i < j → isErrorE (net (0 + i) rp) = true := by
      intro i hi
      simpa using hfail i hi
    have hok0 : net (0 + j) rp = .ok v := by simpa using hok
    have h := retryGo_first_success opts rp net j 0 opts.retries v hle hfail0 hok0
    rw [retryRun, h]
    simp [delayAfter]
  · intro opts rp net hfail
    have hfail0 : ∀ i, i ≤ opts.retries → isErrorE (net (0 + i) rp) = true := by
      intro i hi
      simpa using hfail i hi
    have h := retryGo_all_fail opts rp net opts.retries 0 hfail0
    rw [retryRun, h]
    simp
  · intro opts rp net
    exact retryGo_trace_length opts rp net opts.retries 0
  · intro opts rp net p h
    rw [retryRun]
    cases hr : opts.retries with
    | zero => simp [retryGo, h]
    | succ f => simp [retryGo, h]
  · intro opts rp net
    rcases hr : retryRun opts rp net with ⟨r, tr, ds⟩
    cases r with
    | error e => simp [getPipeline, hr]
    | ok res =>
      simp only [getPipeline, hr]
      split <;> rfl
  · rfl

theorem retry_policy_spec_witness :
    retryRun ⟨2, 3, 100, 1000⟩ ⟨"w", []⟩
        (fun k _ => if k = 0 then .error "boom" else .ok .null)
      = (.ok .null, [⟨"w", []⟩, ⟨"w", []⟩], [100])
    ∧ (retryRun ⟨0, 2, 500, 10000⟩ ⟨"w", []⟩ (fun _ _ => .error "down")).1
      = .error "down" := by
  constructor
  · exact retry_policy_spec.1 ⟨2, 3, 100, 1000⟩ ⟨"w", []⟩ _ 1 .null
      (by decide) (by decide) rfl
  · exact retry_policy_spec.2.1 ⟨0, 2, 500, 10000⟩ ⟨"w", []⟩ _ (by decide)

/-- C7 counterexample: `balance` receiving a present payload whose `ok`
field is `"error"` — different from the success sentinel — succeeds and
returns the normalized payload instead of failing: the source checks only
`!result` for `balance` (and `openOrders`), never the `ok` field. -/
theorem balance_no_ok_check_cex :
    jsStrictEqStr (jsGet (.obj [("ok", .str "error")]) "ok") "ok" = false
    ∧ balanceHandle (.obj [("ok", .str "error")])
        = .ok (parseObjectStrings (.obj [("ok", .str "error")])) :=
  ⟨by decide, rfl⟩

/-- C7 (amended): all failures carry the raw payload as `err.data`, but
the validation differs per endpoint — `balance` and pair-less
`openOrders` fail exactly when the payload is falsy (its `ok` field is
never consulted); `openOrders` with a pair performs no validation and no
normalization at all; `activeOrdersStatus`, `openPositions`,
`closePosition` and `openPosition` fail unless the payload is truthy
**and** its `ok` field is the string `'ok'` (failing also when `ok` is
absent), and otherwise return the normalized `data` field. -/
theorem auth_endpoint_validation :
    (∀ r, jsTruthy r = false →
      balanceHandle r = .error ⟨"Could not get open orders", r⟩
      ∧ openOrdersHandle r = .error ⟨"Could not get open orders", r⟩)
    ∧ (∀ r, jsTruthy r = true →
      balanceHandle r = .ok (parseObjectStrings r)
      ∧ openOrdersHandle r = .ok (parseObjectStrings r))
    ∧ (∀ r, openOrdersPairHandle r = .ok r)
    ∧ (∀ r, jsTruthy r = false ∨ jsStrictEqStr (jsGet r "ok") "ok" = false →
      activeOrdersStatusHandle r = .error ⟨"Could not get active order statuses", r⟩
      ∧ openPositionsHandle r = .error ⟨"Could not get open positions", r⟩
      ∧ closePositionHandle r = .error ⟨"Could not close position", r⟩
      ∧ openPositionHandle r = .error ⟨"Could not open position", r⟩)
    ∧ (∀ r, jsTruthy r = true → jsStrictEqStr (jsGet r "ok") "ok" = true →
      activeOrdersStatusHandle r = .ok (parseObjectStrings (jsGet r "data"))
      ∧ openPositionsHandle r = .ok (parseObjectStrings (jsGet r "data"))
      ∧ closePositionHandle r = .ok (parseObjectStrings (jsGet r "data"))
      ∧ openPositionHandle r = .ok (parseObjectStrings (jsGet r "data"))) := by
  refine ⟨?_, ?_, fun r => rfl, ?_, ?_⟩
  · intro r h
    constructor <;> simp [balanceHandle, openOrdersHandle, h]
  · intro r h
    constructor <;> simp [balanceHandle, openOrdersHandle, h]
  · intro r h
    rcases h with h | h <;>
      refine ⟨?_, ?_, ?_, ?_⟩ <;>
        simp [activeOrdersStatusHandle, openPositionsHandle,
          closePositionHandle, openPositionHandle, h]
  · intro r h1 h2
    refine ⟨?_, ?_, ?_, ?_⟩ <;>
      simp [activeOrdersStatusHandle, openPositionsHandle,
        closePositionHandle, openPositionHandle, h1, h2]

theorem auth_endpoint_validation_witness :
    balanceHandle .undefined = .error ⟨"Could not get open orders", .undefined⟩
    ∧ balanceHandle (.obj [("e", .str "balance")])
        = .ok (parseObjectStrings (.obj [("e", .str "balance")]))
    ∧ openPositionsHandle (.obj [("e", .str "open_positions")])
        = .error ⟨"Could not get open positions", .obj [("e", .str "open_positions")]⟩
    ∧ closePositionHandle (.obj [("ok", .str "ok"), ("data", .null)])
        = .ok (parseObjectStrings
            (jsGet (.obj [("ok", .str "ok"), ("data", .null)]) "data")) :=
  ⟨(auth_endpoint_validation.1 .undefined rfl).1,
   (auth_endpoint_validation.2.1 (.obj [("e", .str "balance")]) rfl).1,
   (auth_endpoint_validation.2.2.2.1 (.obj [("e", .str "open_positions")])
     (Or.inr (by decide))).2.1,
   (auth_endpoint_validation.2.2.2.2 (.obj [("ok", .str "ok"), ("data", .null)])
     rfl (by decide)).2.2.1⟩

/-- C8 counterexample: a payload whose `lprice` field is present but 0 —
a falsy value — makes `lastPrice` fail with 'Unexpected response', though
the claim requires the field's parsed numeric value to be returned
whenever the field is present. -/
theorem lastPrice_falsy_cex :
    jsGet (.obj [("lprice", .num 0)]) "lprice" = .num 0
    ∧ lastPriceHandle (.obj [("lprice", .num 0)]) = .error "Unexpected response" :=
  ⟨rfl, rfl⟩

/-- C8 (amended): `lastPrice` fails with 'Unexpected response' whenever
the payload or its `lprice` field is falsy (absent, null, 0 or the empty
string — not merely absent), and otherwise returns `parseFloat` of the
field; the scenario payload `{curr1:"BTC", curr2:"USD", lprice:"400.00"}`
yields 400. -/
theorem lastPrice_spec :
    (∀ res, jsTruthy res = true → jsTruthy (jsGet res "lprice") = true →
      lastPriceHandle res = .ok (parseFloat? (jsToString (jsGet res "lprice"))))
    ∧ (∀ res, jsTruthy res = false →
      lastPriceHandle res = .error "Unexpected response")
    ∧ (∀ res, jsTruthy (jsGet res "lprice") = false →
      lastPriceHandle res = .error "Unexpected response")
    ∧ lastPriceHandle
        (.obj [("curr1", .str "BTC"), ("curr2", .str "USD"),
               ("lprice", .str "400.00")])
      = .ok (some 400) := by
  refine ⟨?_, ?_, ?_, rfl⟩
  · intro res h1 h2
    simp [lastPriceHandle, h1, h2]
  · intro res h
    simp [lastPriceHandle, h]
  · intro res h
    simp [lastPriceHandle, h]

theorem lastPrice_spec_witness :
    lastPriceHandle (.obj [("lprice", .str "400.00")])
      = .ok (parseFloat?
          (jsToString (jsGet (.obj [("lprice", .str "400.00")]) "lprice")))
    ∧ lastPriceHandle .undefined = .error "Unexpected response" :=
  ⟨lastPrice_spec.1 (.obj [("lprice", .str "400.00")]) rfl (by decide),
   lastPrice_spec.2.1 .undefined rfl⟩

/-- C9 counterexample: when the caller supplies no `stopLossPrice`, the
body built by `openPosition` still contains a `stopLossPrice` field — with
the empty-string value `maxDpStr "" 8 = ""` produced by `maxDpStr`'s
default parameter — instead of omitting the field entirely. -/
theorem openPosition_stopLoss_cex :
    getField
      (openPositionParams
        ⟨.num 1, none, none, none, none, none, .num (mkRat 6503232 10000), .undefined⟩
        "BTC") "stopLossPrice" = some ""
    ∧ getField
      (openPositionParams
        ⟨.num 1, none, none, none, none, none, .num (mkRat 6503232 10000), .undefined⟩
        "BTC") "stopLossPrice" ≠ none := by
  constructor
  · decide
  · decide

/-- C9 (amended): `openPosition` defaults `symbol` and `msymbol` to the
client's primary currency, lower-cases `ptype`, renders `anySlippage` as
`"true"`/`"false"`, formats `amount` and `eoprice` (and a supplied
`stopLossPrice`) through the Decimal-String Formatter — and sends
`stopLossPrice` as the empty string when the caller does not supply it
(present, not omitted); the scenario call transmits
`amount="1.00000000"`, `eoprice="650.32320000"`,
`stopLossPrice="650.32320000"`, `ptype="long"`, `anySlippage="true"`,
`leverage="2"` in its signed body. -/
theorem openPosition_params_spec :
    (∀ args ccy1,
      getField (openPositionParams args ccy1) "amount"
        = some (maxDpStr (jsToString args.amount) 8)
      ∧ getField (openPositionParams args ccy1) "symbol"
        = some (args.symbol.getD ccy1)
      ∧ getField (openPositionParams args ccy1) "msymbol"
        = some (args.msymbol.getD ccy1)
      ∧ getField (openPositionParams args ccy1) "ptype"
        = some (asciiLower (args.ptype.getD "long"))
      ∧ getField (openPositionParams args ccy1) "anySlippage"
        = some (if jsTruthy (args.anySlippage.getD (.bool true))
                then "true" else "false")
      ∧ getField (openPositionParams args ccy1) "leverage"
        = some (jsToString (args.leverage.getD (.num 3)))
      ∧ getField (openPositionParams args ccy1) "eoprice"
        = some (maxDpStr (jsToString args.eoprice) 8)
      ∧ getField (openPositionParams args ccy1) "stopLossPrice"
        = some (if jsTruthy args.stopLossPrice
                then maxDpStr (jsToString args.stopLossPrice) 8
                else maxDpStr "" 8))
    ∧ (getField (postAuthParams 1 "clientId" "key" "secret"
          (openPositionParams
            ⟨.num 1, none, none, some "long", none, some (.num 2),
             .num (mkRat 6503232 10000), .num (mkRat 6503232 10000)⟩ "BTC"))
          "amount" = some "1.00000000"
      ∧ getField (postAuthParams 1 "clientId" "key" "secret"
          (openPositionParams
            ⟨.num 1, none, none, some "long", none, some (.num 2),
             .num (mkRat 6503232 10000), .num (mkRat 6503232 10000)⟩ "BTC"))
          "eoprice" = some "650.32320000"
      ∧ getField (postAuthParams 1 "clientId" "key" "secret"
          (openPositionParams
            ⟨.num 1, none, none, some "long", none, some (.num 2),
             .num (mkRat 6503232 10000), .num (mkRat 6503232 10000)⟩ "BTC"))
          "stopLossPrice" = some "650.32320000"
      ∧ getField (postAuthParams 1 "clientId" "key" "secret"
          (openPositionParams
            ⟨.num 1, none, none, some "long", none, some (.num 2),
             .num (mkRat 6503232 10000), .num (mkRat 6503232 10000)⟩ "BTC"))
          "ptype" = some "long"
      ∧ getField (postAuthParams 1 "clientId" "key" "secret"
          (openPositionParams
            ⟨.num 1, none, none, some "long", none, some (.num 2),
             .num (mkRat 6503232 10000), .num (mkRat 6503232 10000)⟩ "BTC"))
          "anySlippage" = some "true"
      ∧ getField (postAuthParams 1 "clientId" "key" "secret"
          (openPositionParams
            ⟨.num 1, none, none, some "long", none, some (.num 2),
             .num (mkRat 6503232 10000), .num (mkRat 6503232 10000)⟩ "BTC"))
          "leverage" = some "2") := by
  constructor
  · intro args ccy1
    exact ⟨rfl, rfl, rfl, rfl, rfl, rfl, rfl, rfl⟩
  · exact ⟨by decide, by decide, by decide, by decide, by decide, by decide⟩

example : parseFloat? "400.00" = some 400 := by decide
example : parseFloat? "12px" = some 12 := by decide
example : parseFloat? "BTC" = none := by decide
example : parseFloat? "" = none := by decide
example : parseFloat? "  -2.5e1" = some (-25) := by decide
example : parseFloat? "650.3232" = some (mkRat 6503232 10000) := by decide
example : isSyntacticNumberString "12px" = false := by decide
example : isSyntacticNumberString "400.00" = true := by decide
example : parseObjectStrings (.str "12px") = .num 12 := rfl
example : natStr 0 = "0" := by decide
example : natStr 6503232 = "6503232" := by decide
example : maxDpStr "650.3232" 8 = "650.32320000" := by decide
example : maxDpStr "1" 8 = "1.00000000" := by decide
example : maxDpStr "not-a-number" 8 = "not-a-number" := by decide
example : maxDpStr "" 8 = "" := by decide
example : maxDpStr "-2.5" 8 = "-2.50000000" := by decide
example : fracDigitCount "650.32320000" = 8 := by decide
example : ratDecString 1 = "1" := by decide
example : ratDecString (mkRat 6503232 10000) = "650.3232" := by decide
example : ratDecString (-2) = "-2" := by decide
example : jsToString (.num 2) = "2" := by decide
example : asciiLower "LoNg" = "long" := by decide
